import Mathlib

/-
Verification development for the elementium library (elements.py, waiters.py,
drivers/se.py). Python numbers are modelled as Int (retry counts) and Rat
(seconds); Python None as Option; raised exceptions as Except or as explicit
result constructors. Wall-clock time is modelled by an abstract stream
clock : Nat -> Rat of successive time.time() readings; loops take a fuel
parameter (the Python loops can diverge for a frozen clock), and every claim
is settled on runs that terminate within the given fuel.
-/

namespace Elementium

/-- DEFAULT_SLEEP_TIME from util.py (0.25 seconds). -/
def DEFAULT_SLEEP_TIME : ℚ := 1/4

/-- DEFAULT_TTL from util.py (20 seconds). -/
def DEFAULT_TTL : ℚ := 20

/-- Python truthiness of an optional number: None and 0 are falsy. -/
def qTruthy (x : Option ℚ) : Bool :=
  match x with
  | none => false
  | some q => q != 0

/-- Configuration stored by Waiter.__init__ (waiters.py lines 27-44):
fields self.n, self.ttl, self.pause. -/
structure WaiterCfg where
  n : Int
  ttl : ℚ
  pause : ℚ
deriving DecidableEq, Repr

/-- Embeds Waiter.__init__ (waiters.py lines 27-44). Checks, in source order:
"if n and ttl" (both truthy) raises "Cannot set both n and ttl"; "if n < 0";
"if ttl and ttl < 0"; "if pause and pause < 0". It then stores n,
"ttl if ttl else 0", and pause. A raised ValueError is an Except.error holding
the message. -/
def waiterInit (n : Int) (ttl : Option ℚ) (pause : ℚ) : Except String WaiterCfg :=
  if n ≠ 0 ∧ qTruthy ttl then .error "Cannot set both n and ttl"
  else if n < 0 then .error "n cannot be negative"
  else if qTruthy ttl ∧ ttl.getD 0 < 0 then .error "ttl cannot be negative"
  else if pause ≠ 0 ∧ pause < 0 then .error "pause cannot be negative"
  else .ok ⟨n, ttl.getD 0, pause⟩

/-- Embeds Waiter._check_args (waiters.py lines 63-93). Arguments n and ttl
are the call arguments (None modelled as Option.none); selfN and selfTtl are
the instance fields. Negative given values raise; if both given values are
truthy it raises "Cannot set both n and ttl"; if both are falsy it falls back
to (self.n, self.ttl) when either of those is truthy and raises otherwise;
else the (defaulted) pair is returned. Note nArg.getD 0 < 0 holds exactly when
n was given and negative, matching the source's "if n is not None: if n < 0". -/
def check_args (selfN : Int) (selfTtl : ℚ) (nArg : Option Int) (ttlArg : Option ℚ) :
    Except String (Int × ℚ) :=
  if nArg.getD 0 < 0 then .error "n cannot be negative"
  else if ttlArg.getD 0 < 0 then .error "ttl cannot be negative"
  else if nArg.getD 0 ≠ 0 ∧ ttlArg.getD 0 ≠ 0 then .error "Cannot set both n and ttl"
  else if nArg.getD 0 = 0 ∧ ttlArg.getD 0 = 0 then
    if selfN ≠ 0 ∨ selfTtl ≠ 0 then .ok (selfN, selfTtl)
    else .error "Must set either n or ttl with value >= 0"
  else .ok (nArg.getD 0, ttlArg.getD 0)

/-- Embeds ExceptionRetryWaiter.__init__ (waiters.py lines 98-114): runs the
base Waiter.__init__ first, then raises "Must provide exceptions to retry on"
when the exceptions argument is falsy (None or empty); the exception kinds are
modelled as a list over an abstract type. The Python default for ttl at this
constructor is DEFAULT_TTL = 20, i.e. a caller omitting ttl is modelled by
passing (some 20). -/
def exceptionRetryWaiterInit {εK : Type} (exceptions : List εK) (n : Int)
    (ttl : Option ℚ) (pause : ℚ) : Except String (WaiterCfg × List εK) :=
  match waiterInit n ttl pause with
  | .error e => .error e
  | .ok cfg =>
    if exceptions.isEmpty then .error "Must provide exceptions to retry on"
    else .ok (cfg, exceptions)

/-- Embeds ExceptionRetryElementsWaiter.__init__ (waiters.py lines 159-178):
identical budget/exceptions handling as ExceptionRetryWaiter.__init__ (the
bound elements reference does not affect the stored budget), with the same
Python default ttl = DEFAULT_TTL = 20. -/
def exceptionRetryElementsWaiterInit {εK : Type} (exceptions : List εK) (n : Int)
    (ttl : Option ℚ) (pause : ℚ) : Except String (WaiterCfg × List εK) :=
  match waiterInit n ttl pause with
  | .error e => .error e
  | .ok cfg =>
    if exceptions.isEmpty then .error "Must provide exceptions to retry on"
    else .ok (cfg, exceptions)

theorem waiterInit_ok_invariant {n : Int} {ttl : Option ℚ} {pause : ℚ} {cfg : WaiterCfg}
    (h : waiterInit n ttl pause = .ok cfg) :
    0 ≤ cfg.n ∧ 0 ≤ cfg.ttl ∧ ¬(cfg.n ≠ 0 ∧ cfg.ttl ≠ 0) := by
  unfold waiterInit at h
  by_cases h1 : n ≠ 0 ∧ qTruthy ttl
  · simp [h1] at h
  · rw [if_neg h1] at h
    by_cases h2 : n < 0
    · simp [h2] at h
    · rw [if_neg h2] at h
      by_cases h3 : (qTruthy ttl : Prop) ∧ ttl.getD 0 < 0
      · simp [h3] at h
      · rw [if_neg h3] at h
        by_cases h4 : pause ≠ 0 ∧ pause < 0
        · simp [h4] at h
        · rw [if_neg h4] at h
          obtain rfl : cfg = ⟨n, ttl.getD 0, pause⟩ := (Except.ok.inj h).symm
          refine ⟨show (0:Int) ≤ n by omega, ?_, ?_⟩
          · show (0:ℚ) ≤ ttl.getD 0
            rcases ttl with _ | t
            · simp
            · simp only [Option.getD_some]
              by_cases ht : t = 0
              · simp [ht]
              · have hq : qTruthy (some t) = true := by simp [qTruthy, ht]
                by_contra hlt
                exact h3 ⟨hq, by simpa using not_le.mp hlt⟩
          · rintro ⟨hn, ht⟩
            rcases ttl with _ | t
            · simp at ht
            · simp only [Option.getD_some] at ht
              exact h1 ⟨hn, by simp [qTruthy, ht]⟩

instance exceptDecidableEq {ε α : Type} [DecidableEq ε] [DecidableEq α] :
    DecidableEq (Except ε α)
  | .error a, .error b =>
    if h : a = b then .isTrue (by rw [h])
    else .isFalse (fun hh => h (Except.error.inj hh))
  | .error _, .ok _ => .isFalse (fun hh => Except.noConfusion hh)
  | .ok _, .error _ => .isFalse (fun hh => Except.noConfusion hh)
  | .ok a, .ok b =>
    if h : a = b then .isTrue (by rw [h])
    else .isFalse (fun hh => h (Except.ok.inj hh))

theorem check_args_ok_shape {sN : Int} {sT : ℚ} {nArg : Option Int} {ttlArg : Option ℚ}
    {r : Int × ℚ} (hinv : ¬(sN ≠ 0 ∧ sT ≠ 0))
    (hr : check_args sN sT nArg ttlArg = .ok r) :
    (r.1 ≠ 0 ∧ r.2 = 0) ∨ (r.1 = 0 ∧ r.2 ≠ 0) := by
  unfold check_args at hr
  split at hr
  · exact absurd hr (by simp)
  split at hr
  · exact absurd hr (by simp)
  split at hr
  · exact absurd hr (by simp)
  rename_i hboth
  split at hr
  · split at hr
    · rename_i hfall
      obtain rfl : r = (sN, sT) := (Except.ok.inj hr).symm
      rcases hfall with hn | ht
      · exact Or.inl ⟨hn, by_contra fun hst => hinv ⟨hn, fun h => hst (by simp [h])⟩⟩
      · right
        refine ⟨?_, ht⟩
        by_contra hn
        exact hinv ⟨hn, ht⟩
    · exact absurd hr (by simp)
  · rename_i hnotzero
    obtain rfl : r = (nArg.getD 0, ttlArg.getD 0) := (Except.ok.inj hr).symm
    by_cases hn : nArg.getD 0 = 0
    · right
      exact ⟨hn, fun ht => hnotzero ⟨hn, ht⟩⟩
    · left
      refine ⟨hn, ?_⟩
      by_contra ht
      exact hboth ⟨hn, ht⟩

/-- C5: for all argument pairs where exactly one component is nonzero and both
are non-negative, _check_args returns the pair unchanged; both set, or either
negative, raises; neither set falls back to the instance's configured
(constructor-validated) defaults, raising only when those are also both zero;
and every returned pair has exactly one nonzero component. -/
theorem check_args_resolves_budget :
    (∀ (sN : Int) (sT : ℚ) (nv : Int) (tv : ℚ),
        0 ≤ nv → 0 ≤ tv → ((nv ≠ 0 ∧ tv = 0) ∨ (nv = 0 ∧ tv ≠ 0)) →
        check_args sN sT (some nv) (some tv) = .ok (nv, tv))
  ∧ (∀ (sN : Int) (sT : ℚ) (nv : Int) (tv : ℚ),
        nv ≠ 0 → tv ≠ 0 → 0 ≤ nv → 0 ≤ tv →
        check_args sN sT (some nv) (some tv) = .error "Cannot set both n and ttl")
  ∧ (∀ (sN : Int) (sT : ℚ) (nv : Int) (ttlArg : Option ℚ),
        nv < 0 → check_args sN sT (some nv) ttlArg = .error "n cannot be negative")
  ∧ (∀ (sN : Int) (sT : ℚ) (nArg : Option Int) (tv : ℚ),
        0 ≤ nArg.getD 0 → tv < 0 →
        check_args sN sT nArg (some tv) = .error "ttl cannot be negative")
  ∧ (∀ (n : Int) (ttl : Option ℚ) (p : ℚ) (cfg : WaiterCfg),
        waiterInit n ttl p = .ok cfg →
        (cfg.n = 0 ∧ cfg.ttl = 0 →
          check_args cfg.n cfg.ttl none none =
            .error "Must set either n or ttl with value >= 0")
        ∧ (cfg.n ≠ 0 ∨ cfg.ttl ≠ 0 →
          check_args cfg.n cfg.ttl none none = .ok (cfg.n, cfg.ttl)))
  ∧ (∀ (n : Int) (ttl : Option ℚ) (p : ℚ) (cfg : WaiterCfg)
        (nArg : Option Int) (ttlArg : Option ℚ) (r : Int × ℚ),
        waiterInit n ttl p = .ok cfg →
        check_args cfg.n cfg.ttl nArg ttlArg = .ok r →
        (r.1 ≠ 0 ∧ r.2 = 0) ∨ (r.1 = 0 ∧ r.2 ≠ 0)) := by
  refine ⟨?_, ?_, ?_, ?_, ?_, ?_⟩
  · rintro sN sT nv tv hn ht h
    simp only [check_args, Option.getD_some]
    rw [if_neg (not_lt.mpr hn), if_neg (not_lt.mpr ht)]
    rcases h with ⟨hnz, rfl⟩ | ⟨rfl, htz⟩
    · rw [if_neg (by simp), if_neg (by simp [hnz])]
    · rw [if_neg (by simp), if_neg (by simp [htz])]
  · intro sN sT nv tv hnz htz hn ht
    simp only [check_args, Option.getD_some]
    rw [if_neg (not_lt.mpr hn), if_neg (not_lt.mpr ht), if_pos ⟨hnz, htz⟩]
  · intro sN sT nv ttlArg hn
    simp only [check_args, Option.getD_some]
    rw [if_pos hn]
  · intro sN sT nArg tv hn ht
    simp only [check_args, Option.getD_some]
    rw [if_neg (not_lt.mpr hn), if_pos ht]
  · intro n ttl p cfg h
    constructor
    · rintro ⟨hz1, hz2⟩
      simp [check_args, hz1, hz2]
    · intro hnz
      have hred : check_args cfg.n cfg.ttl none none =
          if cfg.n ≠ 0 ∨ cfg.ttl ≠ 0 then .ok (cfg.n, cfg.ttl)
          else .error "Must set either n or ttl with value >= 0" := by
        simp [check_args]
      rw [hred, if_pos hnz]
  · intro n ttl p cfg nArg ttlArg r h hr
    exact check_args_ok_shape (waiterInit_ok_invariant h).2.2 hr

theorem check_args_resolves_budget_witness :
    check_args 5 7 (some 3) (some 0) = .ok (3, 0)
  ∧ check_args 5 7 (some 2) (some 3) = .error "Cannot set both n and ttl"
  ∧ check_args 5 7 (some (-1)) none = .error "n cannot be negative"
  ∧ check_args 5 7 none (some (-2)) = .error "ttl cannot be negative"
  ∧ check_args 0 0 none none = .error "Must set either n or ttl with value >= 0"
  ∧ check_args 0 20 none none = .ok (0, 20)
  ∧ (((3 : Int), (0 : ℚ)).1 ≠ 0 ∧ ((3 : Int), (0 : ℚ)).2 = 0
      ∨ ((3 : Int), (0 : ℚ)).1 = 0 ∧ ((3 : Int), (0 : ℚ)).2 ≠ 0) :=
  ⟨check_args_resolves_budget.1 5 7 3 0 (by norm_num) (by norm_num) (Or.inl ⟨by norm_num, rfl⟩),
   check_args_resolves_budget.2.1 5 7 2 3 (by norm_num) (by norm_num) (by norm_num) (by norm_num),
   check_args_resolves_budget.2.2.1 5 7 (-1) none (by norm_num),
   check_args_resolves_budget.2.2.2.1 5 7 none (-2) (by norm_num) (by norm_num),
   (check_args_resolves_budget.2.2.2.2.1 0 none 1 ⟨0, 0, 1⟩ (by decide)).1 ⟨rfl, rfl⟩,
   (check_args_resolves_budget.2.2.2.2.1 0 (some 20) 1 ⟨0, 20, 1⟩ (by decide)).2
     (Or.inr (by norm_num)),
   check_args_resolves_budget.2.2.2.2.2 0 (some 20) 1 ⟨0, 20, 1⟩ (some 3) none (3, 0)
     (by decide) (by decide)⟩

/-- C10: for every positive retry count n, constructing ExceptionRetryWaiter
or ExceptionRetryElementsWaiter with that n while leaving ttl at its Python
default DEFAULT_TTL = 20 raises "Cannot set both n and ttl"; a successful
construction with positive n forces the ttl argument to be None or zero. -/
theorem retry_waiter_init_default_ttl_conflict :
    (∀ (n : Int), 0 < n → ∀ (p : ℚ) (excs : List ℕ),
        exceptionRetryWaiterInit excs n (some DEFAULT_TTL) p =
          .error "Cannot set both n and ttl"
      ∧ exceptionRetryElementsWaiterInit excs n (some DEFAULT_TTL) p =
          .error "Cannot set both n and ttl")
  ∧ (∀ (n : Int) (p : ℚ) (excs : List ℕ) (ttlArg : Option ℚ)
        (res : WaiterCfg × List ℕ),
        0 < n → exceptionRetryWaiterInit excs n ttlArg p = .ok res →
        ttlArg = none ∨ ttlArg = some 0)
  ∧ (∀ (n : Int) (p : ℚ) (excs : List ℕ) (ttlArg : Option ℚ)
        (res : WaiterCfg × List ℕ),
        0 < n → exceptionRetryElementsWaiterInit excs n ttlArg p = .ok res →
        ttlArg = none ∨ ttlArg = some 0)
  ∧ exceptionRetryWaiterInit [0] 3 none 1 = .ok (⟨3, 0, 1⟩, [0])
  ∧ exceptionRetryElementsWaiterInit [0] 3 (some 0) 1 = .ok (⟨3, 0, 1⟩, [0]) := by
  have hbase : ∀ (n : Int), 0 < n → ∀ (p : ℚ) (t : ℚ), t ≠ 0 →
      waiterInit n (some t) p = .error "Cannot set both n and ttl" := by
    intro n hn p t ht
    unfold waiterInit
    rw [if_pos ⟨by omega, by simp [qTruthy, ht]⟩]
  refine ⟨?_, ?_, ?_, by decide, by decide⟩
  · intro n hn p excs
    constructor
    · unfold exceptionRetryWaiterInit
      rw [hbase n hn p DEFAULT_TTL (by norm_num [DEFAULT_TTL])]
    · unfold exceptionRetryElementsWaiterInit
      rw [hbase n hn p DEFAULT_TTL (by norm_num [DEFAULT_TTL])]
  · intro n p excs ttlArg res hn hok
    rcases ttlArg with _ | t
    · exact Or.inl rfl
    · right
      by_contra hne
      have ht : t ≠ 0 := fun h => hne (by rw [h])
      unfold exceptionRetryWaiterInit at hok
      rw [hbase n hn p t ht] at hok
      exact absurd hok (by simp)
  · intro n p excs ttlArg res hn hok
    rcases ttlArg with _ | t
    · exact Or.inl rfl
    · right
      by_contra hne
      have ht : t ≠ 0 := fun h => hne (by rw [h])
      unfold exceptionRetryElementsWaiterInit at hok
      rw [hbase n hn p t ht] at hok
      exact absurd hok (by simp)

theorem retry_waiter_init_default_ttl_conflict_witness :
    exceptionRetryWaiterInit [0] 2 (some DEFAULT_TTL) 1 =
      .error "Cannot set both n and ttl"
  ∧ exceptionRetryElementsWaiterInit [0] 2 (some DEFAULT_TTL) 1 =
      .error "Cannot set both n and ttl"
  ∧ ((some (0 : ℚ) = (none : Option ℚ)) ∨ (some (0 : ℚ) = some 0)) :=
  ⟨(retry_waiter_init_default_ttl_conflict.1 2 (by norm_num) 1 [0]).1,
   (retry_waiter_init_default_ttl_conflict.1 2 (by norm_num) 1 [0]).2,
   retry_waiter_init_default_ttl_conflict.2.2.1 2 1 [0] (some 0) (⟨2, 0, 1⟩, [0])
     (by norm_num) (by decide)⟩

/-- Outcome of one invocation of a retried operation: a Python return value or
a raised exception of abstract kind ε. The operation is modelled as a function
of the number of calls made so far, so failing-then-succeeding behaviours are
expressible. -/
inductive Outcome (ε α : Type) where
  | ok (a : α)
  | exc (e : ε)
deriving DecidableEq, Repr

/-- Result of an ExceptionRetryWaiter.wait run: value returned, exception
re-raised or propagated, or fuel exhausted (the Python loop would still be
running at that point). -/
inductive RRes (ε α : Type) where
  | returns (a : α)
  | raises (e : ε)
  | fuelOut
deriving DecidableEq, Repr

/-- Observable trace of an ExceptionRetryWaiter.wait run: final result, the
number of operation calls made, and the successive time.sleep pauses. -/
structure RTrace (ε α : Type) where
  res : RRes ε α
  calls : ℕ
  sleeps : List ℚ
deriving DecidableEq, Repr

/-- Embeds the loop of ExceptionRetryWaiter.wait (waiters.py lines 129-138).
Each iteration decrements n, invokes the operation (indexed by the number of
calls made so far), returns its value on success; on a recognized failure it
either sleeps the current pause, sets pause = min(pause + pause, pause * 4),
and loops when time.time() < etime or n > 0, or else re-raises; an
unrecognized failure propagates immediately. clock is the stream of
time.time() readings; reading 0 was already consumed to form etime, so the
loop reads from clockIdx on. -/
def erwLoop {ε α : Type} (recog : ε → Bool) (f : ℕ → Outcome ε α) (clock : ℕ → ℚ)
    (etime : ℚ) : ℕ → Int → ℚ → ℕ → ℕ → List ℚ → RTrace ε α
  | 0, _, _, calls, _, sleeps => ⟨.fuelOut, calls, sleeps⟩
  | fuel + 1, n, pause, calls, clockIdx, sleeps =>
    match f calls with
    | .ok a => ⟨.returns a, calls + 1, sleeps⟩
    | .exc e =>
      if recog e then
        if clock clockIdx < etime ∨ n - 1 > 0 then
          erwLoop recog f clock etime fuel (n - 1) (min (pause + pause) (pause * 4))
            (calls + 1) (clockIdx + 1) (sleeps ++ [pause])
        else ⟨.raises e, calls + 1, sleeps⟩
      else ⟨.raises e, calls + 1, sleeps⟩

/-- Embeds ExceptionRetryWaiter.wait (waiters.py lines 116-138): resolves the
budget through _check_args, forms etime = time.time() + ttl from clock reading
0, and runs the retry loop with the instance's initial pause. -/
def erwWait {ε α : Type} (cfg : WaiterCfg) (recog : ε → Bool) (f : ℕ → Outcome ε α)
    (clock : ℕ → ℚ) (nArg : Option Int) (ttlArg : Option ℚ) (fuel : ℕ) :
    Except String (RTrace ε α) :=
  match check_args cfg.n cfg.ttl nArg ttlArg with
  | .error e => .error e
  | .ok (n, ttl) => .ok (erwLoop recog f clock (clock 0 + ttl) fuel n cfg.pause 0 1 [])

/-- Result of an ExceptionRetryElementsWaiter.wait run: value returned, last
recognized failure re-raised (or an unrecognized one propagated), the
RuntimeError raised when the loop never ran (carrying the n and ttl values the
message formats), or fuel exhaustion. -/
inductive ERes (ε α : Type) where
  | returns (a : α)
  | raises (e : ε)
  | neverRan (n : Int) (ttl : ℚ)
  | fuelOut
deriving DecidableEq, Repr

/-- Observable trace of an ExceptionRetryElementsWaiter.wait run: result,
operation call count, sleep sequence, and one entry per elements.update()
call holding its propagate flag (the call uses update's Python default
propagate=True). -/
structure ETrace (ε α : Type) where
  res : ERes ε α
  calls : ℕ
  sleeps : List ℚ
  updates : List Bool
deriving DecidableEq, Repr

/-- Embeds the loop of ExceptionRetryElementsWaiter.wait (waiters.py lines
190-212). While time.time() < etime or n > 0: decrement n and invoke the
operation; on success return its value; on a recognized failure sleep the
current pause, set pause = min(pause + pause, pause * 4), remember the
failure, and call elements.update() when the bound elements are truthy; an
unrecognized failure propagates. On normal loop exit the remembered failure,
if any, is re-raised, otherwise the "Waiter was never run" RuntimeError is
raised formatting the current n and the resolved ttl. -/
def erewLoop {ε α : Type} (recog : ε → Bool) (f : ℕ → Outcome ε α) (clock : ℕ → ℚ)
    (etime : ℚ) (ttl : ℚ) (elemsTruthy : Bool) :
    ℕ → Int → ℚ → Option ε → ℕ → ℕ → List ℚ → List Bool → ETrace ε α
  | 0, _, _, _, calls, _, sleeps, updates => ⟨.fuelOut, calls, sleeps, updates⟩
  | fuel + 1, n, pause, lastExc, calls, clockIdx, sleeps, updates =>
    if clock clockIdx < etime ∨ n > 0 then
      match f calls with
      | .ok a => ⟨.returns a, calls + 1, sleeps, updates⟩
      | .exc e =>
        if recog e then
          erewLoop recog f clock etime ttl elemsTruthy fuel (n - 1)
            (min (pause + pause) (pause * 4)) (some e) (calls + 1) (clockIdx + 1)
            (sleeps ++ [pause]) (updates ++ if elemsTruthy then [true] else [])
        else ⟨.raises e, calls + 1, sleeps, updates⟩
    else
      match lastExc with
      | some e => ⟨.raises e, calls, sleeps, updates⟩
      | none => ⟨.neverRan n ttl, calls, sleeps, updates⟩

/-- Embeds ExceptionRetryElementsWaiter.wait (waiters.py lines 180-212):
resolves the budget through _check_args, forms etime from clock reading 0,
and runs the loop with exc_from_run = None. -/
def erewWait {ε α : Type} (cfg : WaiterCfg) (recog : ε → Bool) (f : ℕ → Outcome ε α)
    (clock : ℕ → ℚ) (elemsTruthy : Bool) (nArg : Option Int) (ttlArg : Option ℚ)
    (fuel : ℕ) : Except String (ETrace ε α) :=
  match check_args cfg.n cfg.ttl nArg ttlArg with
  | .error e => .error e
  | .ok (n, ttl) =>
    .ok (erewLoop recog f clock (clock 0 + ttl) ttl elemsTruthy fuel n cfg.pause
      none 0 1 [] [])

/-- Result of a ConditionElementsWaiter.wait run: TimeOutError carrying its
reason string, the bound elements returned, or fuel exhaustion. -/
inductive CRes where
  | timeout (reason : String)
  | outElems
  | fuelOut
deriving DecidableEq, Repr

/-- Observable trace of a ConditionElementsWaiter.wait run: result, predicate
call count, sleep sequence, and one entry per elements.update() call holding
its propagate flag (update's Python default propagate=True). -/
structure CTrace where
  res : CRes
  predCalls : ℕ
  sleeps : List ℚ
  updates : List Bool
deriving DecidableEq, Repr

/-- Embeds the reason computation of ConditionElementsWaiter.wait (waiters.py
lines 244-247): reason = "Unknown"; then, with Exception ignored, reason =
inspect.getsource(fn) followed by reason = reason.strip(). The
possibly-failing source extraction is an Option String: none models getsource
raising, in which case the "Unknown" fallback survives. -/
def cewReason (src : Option String) : String :=
  match src with
  | none => "Unknown"
  | some s => s.trim

/-- Embeds the loop of ConditionElementsWaiter.wait (waiters.py lines
235-249). While time.time() < etime or n > 0: decrement n and evaluate the
predicate on the bound elements; if false, sleep the current pause, set pause
= min(pause + pause, pause * 4), and call elements.update(); if true, break
and return the elements. A normal loop exit raises TimeOutError(reason). -/
def cewLoop (f : ℕ → Bool) (clock : ℕ → ℚ) (etime : ℚ) (src : Option String) :
    ℕ → Int → ℚ → ℕ → ℕ → List ℚ → List Bool → CTrace
  | 0, _, _, calls, _, sleeps, updates => ⟨.fuelOut, calls, sleeps, updates⟩
  | fuel + 1, n, pause, calls, clockIdx, sleeps, updates =>
    if clock clockIdx < etime ∨ n > 0 then
      if f calls then ⟨.outElems, calls + 1, sleeps, updates⟩
      else
        cewLoop f clock etime src fuel (n - 1) (min (pause + pause) (pause * 4))
          (calls + 1) (clockIdx + 1) (sleeps ++ [pause]) (updates ++ [true])
    else ⟨.timeout (cewReason src), calls, sleeps, updates⟩

/-- Embeds ConditionElementsWaiter.wait (waiters.py lines 218-249): resolves
the budget through _check_args, forms etime from clock reading 0, and runs
the polling loop. -/
def cewWait (cfg : WaiterCfg) (f : ℕ → Bool) (clock : ℕ → ℚ) (src : Option String)
    (nArg : Option Int) (ttlArg : Option ℚ) (fuel : ℕ) : Except String CTrace :=
  match check_args cfg.n cfg.ttl nArg ttlArg with
  | .error e => .error e
  | .ok (n, ttl) => .ok (cewLoop f clock (clock 0 + ttl) src fuel n cfg.pause 0 1 [] [])

/-- C6: ExceptionRetryWaiter.wait invoked with n=2 on an operation that always
raises a recognized failure kind calls the operation exactly twice and then
re-raises the last failure unchanged; an operation raising an unrecognized
kind is called exactly once with the failure propagated immediately; a
succeeding operation is called exactly once and its result returned,
whatever the resolved budget. The clock hypothesis says time.time() never
reads below its first reading. -/
theorem erw_wait_retry_counts :
    (∀ (cfg : WaiterCfg) (ε α : Type) (recog : ε → Bool) (e : ℕ → ε)
        (clock : ℕ → ℚ),
        (∀ i, recog (e i) = true) → (∀ k, clock 0 ≤ clock k) →
        erwWait (α := α) cfg recog (fun i => .exc (e i)) clock (some 2) none 2 =
          .ok ⟨.raises (e 1), 2, [cfg.pause]⟩)
  ∧ (∀ (cfg : WaiterCfg) (ε α : Type) (recog : ε → Bool) (e0 : ε)
        (f : ℕ → Outcome ε α) (clock : ℕ → ℚ) (fuel : ℕ),
        f 0 = .exc e0 → recog e0 = false → 1 ≤ fuel →
        erwWait cfg recog f clock (some 2) none fuel = .ok ⟨.raises e0, 1, []⟩)
  ∧ (∀ (cfg : WaiterCfg) (ε α : Type) (recog : ε → Bool) (a : α)
        (f : ℕ → Outcome ε α) (clock : ℕ → ℚ) (fuel : ℕ)
        (nArg : Option Int) (ttlArg : Option ℚ) (n : Int) (ttl : ℚ),
        f 0 = .ok a → check_args cfg.n cfg.ttl nArg ttlArg = .ok (n, ttl) →
        1 ≤ fuel →
        erwWait cfg recog f clock nArg ttlArg fuel = .ok ⟨.returns a, 1, []⟩) := by
  have hca : ∀ (sN : Int) (sT : ℚ), check_args sN sT (some 2) none = .ok (2, 0) := by
    intro sN sT
    simp [check_args]
  refine ⟨?_, ?_, ?_⟩
  · intro cfg ε α recog e clock hrec hcl
    unfold erwWait
    rw [hca]
    simp only [erwLoop, hrec, if_true]
    norm_num
    exact hcl 2
  · intro cfg ε α recog e0 f clock fuel hf hrec hfuel
    obtain ⟨m, rfl⟩ : ∃ m, fuel = m + 1 := ⟨fuel - 1, by omega⟩
    unfold erwWait
    rw [hca]
    simp only [erwLoop, hf, hrec]
    simp
  · intro cfg ε α recog a f clock fuel nArg ttlArg n ttl hf hargs hfuel
    obtain ⟨m, rfl⟩ : ∃ m, fuel = m + 1 := ⟨fuel - 1, by omega⟩
    unfold erwWait
    rw [hargs]
    simp only [erwLoop, hf]

theorem erw_wait_retry_counts_witness :
    erwWait (⟨0, 20, 1⟩ : WaiterCfg) (fun _ : ℕ => true)
        (fun i => (Outcome.exc i : Outcome ℕ ℕ)) (fun _ => 0) (some 2) none 2 =
      .ok ⟨.raises 1, 2, [1]⟩
  ∧ erwWait (⟨0, 20, 1⟩ : WaiterCfg) (fun _ : ℕ => false)
        (fun i => (Outcome.exc i : Outcome ℕ ℕ)) (fun _ => 0) (some 2) none 2 =
      .ok ⟨.raises 0, 1, []⟩
  ∧ erwWait (⟨0, 20, 1⟩ : WaiterCfg) (fun _ : ℕ => true)
        (fun _ => (Outcome.ok 7 : Outcome ℕ ℕ)) (fun _ => 0) (some 2) none 2 =
      .ok ⟨.returns 7, 1, []⟩ :=
  ⟨erw_wait_retry_counts.1 ⟨0, 20, 1⟩ ℕ ℕ (fun _ => true) (fun i => i) (fun _ => 0)
      (fun _ => rfl) (fun _ => le_refl 0),
   erw_wait_retry_counts.2.1 ⟨0, 20, 1⟩ ℕ ℕ (fun _ => false) 0 (fun i => .exc i)
      (fun _ => 0) 2 rfl rfl (by norm_num),
   erw_wait_retry_counts.2.2 ⟨0, 20, 1⟩ ℕ ℕ (fun _ => true) 7 (fun _ => .ok 7)
      (fun _ => 0) 2 (some 2) none 2 0 rfl (by decide) (by norm_num)⟩

/-- C7 counterexample: the claim that the backoff pause is capped at 4 times
the initial pause value for all iterations is false. In an
ExceptionRetryWaiter.wait run with initial pause 1, n=5, and an operation that
always raises a recognized kind, the recorded sleeps are 1, 2, 4, 8: the
fourth sleep is 8, which exceeds 4 * 1. -/
theorem backoff_cap_counterexample :
    erwWait (⟨0, 20, 1⟩ : WaiterCfg) (fun _ : ℕ => true)
        (fun i => (Outcome.exc i : Outcome ℕ Unit)) (fun _ => 0) (some 5) none 5 =
      .ok ⟨.raises 4, 5, [1, 2, 4, 8]⟩
  ∧ ¬ ((8 : ℚ) ≤ 4 * 1) := by
  constructor
  · unfold erwWait
    rw [show check_args 0 20 (some 5) none = .ok (5, 0) from by decide]
    simp only [erwLoop]
    norm_num [min_def]
  · norm_num

/-- C7 (amended): in each of the three waiter retry/poll loops, a failed
attempt that continues sleeps the current pause and then sets it to
min(pause + pause, pause * 4), which equals pause + pause whenever pause is
nonnegative (as the constructor guarantees); so the pause doubles every
backoff with no effective cap. In always-failing n=5 runs the recorded sleeps
are p, 2p, 4p, 8p (ExceptionRetryWaiter sleeps only when it will retry) and
p, 2p, 4p, 8p, 16p (the two elements waiters sleep on every failure), and a
doubled-thrice pause 8p strictly exceeds the supposed 4p cap for p > 0. -/
theorem backoff_doubles_without_cap :
    (∀ p : ℚ, 0 ≤ p → min (p + p) (p * 4) = p + p)
  ∧ (∀ (cfg : WaiterCfg) (ε : Type) (recog : ε → Bool) (e : ℕ → ε)
        (clock : ℕ → ℚ),
        0 ≤ cfg.pause → (∀ i, recog (e i) = true) → (∀ k, clock 0 ≤ clock k) →
        erwWait (α := Unit) cfg recog (fun i => .exc (e i)) clock (some 5) none 5 =
          .ok ⟨.raises (e 4), 5,
            [cfg.pause, 2 * cfg.pause, 4 * cfg.pause, 8 * cfg.pause]⟩)
  ∧ (∀ (cfg : WaiterCfg) (ε : Type) (recog : ε → Bool) (e : ℕ → ε)
        (clock : ℕ → ℚ),
        0 ≤ cfg.pause → (∀ i, recog (e i) = true) → (∀ k, clock 0 ≤ clock k) →
        erewWait (α := Unit) cfg recog (fun i => .exc (e i)) clock true
            (some 5) none 6 =
          .ok ⟨.raises (e 4), 5,
            [cfg.pause, 2 * cfg.pause, 4 * cfg.pause, 8 * cfg.pause, 16 * cfg.pause],
            [true, true, true, true, true]⟩)
  ∧ (∀ (cfg : WaiterCfg) (clock : ℕ → ℚ) (src : Option String),
        0 ≤ cfg.pause → (∀ k, clock 0 ≤ clock k) →
        cewWait cfg (fun _ => false) clock src (some 5) none 6 =
          .ok ⟨.timeout (cewReason src), 5,
            [cfg.pause, 2 * cfg.pause, 4 * cfg.pause, 8 * cfg.pause, 16 * cfg.pause],
            [true, true, true, true, true]⟩)
  ∧ (∀ p : ℚ, 0 < p → 4 * p < 8 * p) := by
  have hca5 : ∀ (sN : Int) (sT : ℚ), check_args sN sT (some 5) none = .ok (5, 0) := by
    intro sN sT
    simp [check_args]
  have hmin : ∀ q : ℚ, 0 ≤ q → min (q + q) (q * 4) = q + q := by
    intro q hq
    exact min_eq_left (by linarith)
  refine ⟨hmin, ?_, ?_, ?_, fun p hp => by linarith⟩
  · intro cfg ε recog e clock hp hrec hcl
    unfold erwWait
    rw [hca5]
    simp only [erwLoop, hrec, if_true]
    rw [hmin cfg.pause hp, hmin _ (by linarith), hmin _ (by linarith)]
    norm_num
    rw [if_neg (not_lt.mpr (hcl 5))]
    ring_nf
  · intro cfg ε recog e clock hp hrec hcl
    unfold erewWait
    rw [hca5]
    simp only [erewLoop, hrec, if_true]
    rw [hmin cfg.pause hp, hmin _ (by linarith), hmin _ (by linarith),
      hmin _ (by linarith)]
    norm_num
    rw [if_neg (not_lt.mpr (hcl 6))]
    ring_nf
  · intro cfg clock src hp hcl
    unfold cewWait
    rw [hca5]
    simp only [cewLoop, if_true]
    rw [hmin cfg.pause hp, hmin _ (by linarith), hmin _ (by linarith),
      hmin _ (by linarith)]
    norm_num
    rw [if_neg (not_lt.mpr (hcl 6))]
    ring_nf

theorem backoff_doubles_without_cap_witness :
    min ((1 : ℚ) + 1) (1 * 4) = 1 + 1
  ∧ erwWait (⟨0, 20, 1⟩ : WaiterCfg) (fun _ : ℕ => true)
        (fun i => (Outcome.exc i : Outcome ℕ Unit)) (fun _ => 0) (some 5) none 5 =
      .ok ⟨.raises 4, 5, [1, 2 * 1, 4 * 1, 8 * 1]⟩
  ∧ erewWait (⟨0, 20, 1⟩ : WaiterCfg) (fun _ : ℕ => true)
        (fun i => (Outcome.exc i : Outcome ℕ Unit)) (fun _ => 0) true
        (some 5) none 6 =
      .ok ⟨.raises 4, 5, [1, 2 * 1, 4 * 1, 8 * 1, 16 * 1],
        [true, true, true, true, true]⟩
  ∧ cewWait (⟨0, 20, 1⟩ : WaiterCfg) (fun _ => false) (fun _ => 0) none
        (some 5) none 6 =
      .ok ⟨.timeout (cewReason none), 5, [1, 2 * 1, 4 * 1, 8 * 1, 16 * 1],
        [true, true, true, true, true]⟩
  ∧ (4 : ℚ) * 1 < 8 * 1 :=
  ⟨backoff_doubles_without_cap.1 1 (by norm_num),
   backoff_doubles_without_cap.2.1 ⟨0, 20, 1⟩ ℕ (fun _ => true) (fun i => i)
     (fun _ => 0) (by norm_num) (fun _ => rfl) (fun _ => le_refl 0),
   backoff_doubles_without_cap.2.2.1 ⟨0, 20, 1⟩ ℕ (fun _ => true) (fun i => i)
     (fun _ => 0) (by norm_num) (fun _ => rfl) (fun _ => le_refl 0),
   backoff_doubles_without_cap.2.2.2.1 ⟨0, 20, 1⟩ (fun _ => 0) none
     (by norm_num) (fun _ => le_refl 0),
   backoff_doubles_without_cap.2.2.2.2 1 (by norm_num)⟩

/-- C8: ConditionElementsWaiter.wait with n=2 and an always-false predicate
calls the predicate exactly twice, calls the bound collection's update (with
update's propagate=True default) after each false result, and then fails with
TimeOutError carrying the best-effort predicate description: the stripped
extracted source when extraction succeeds, the "Unknown" fallback when it
raises. When the predicate returns true the bound collection is returned
immediately with no update. -/
theorem cew_wait_poll_behaviour :
    (∀ (cfg : WaiterCfg) (clock : ℕ → ℚ) (src : Option String) (f : ℕ → Bool),
        (∀ i, f i = false) → (∀ k, clock 0 ≤ clock k) →
        cewWait cfg f clock src (some 2) none 3 =
          .ok ⟨.timeout (cewReason src), 2,
            [cfg.pause, min (cfg.pause + cfg.pause) (cfg.pause * 4)],
            [true, true]⟩)
  ∧ (∀ (cfg : WaiterCfg) (clock : ℕ → ℚ) (src : Option String) (f : ℕ → Bool)
        (fuel : ℕ), f 0 = true → 1 ≤ fuel →
        cewWait cfg f clock src (some 2) none fuel = .ok ⟨.outElems, 1, [], []⟩)
  ∧ (∀ s : String, cewReason (some s) = s.trim)
  ∧ cewReason none = "Unknown" := by
  have hca2 : ∀ (sN : Int) (sT : ℚ), check_args sN sT (some 2) none = .ok (2, 0) := by
    intro sN sT
    simp [check_args]
  refine ⟨?_, ?_, fun s => rfl, rfl⟩
  · intro cfg clock src f hf hcl
    unfold cewWait
    rw [hca2]
    simp only [cewLoop, hf]
    norm_num
    exact hcl 3
  · intro cfg clock src f fuel hf hfuel
    obtain ⟨m, rfl⟩ : ∃ m, fuel = m + 1 := ⟨fuel - 1, by omega⟩
    unfold cewWait
    rw [hca2]
    simp only [cewLoop, hf]
    norm_num

theorem cew_wait_poll_behaviour_witness :
    cewWait (⟨0, 20, 1⟩ : WaiterCfg) (fun _ => false) (fun _ => 0)
        (some "  lambda e: False  ") (some 2) none 3 =
      .ok ⟨.timeout (cewReason (some "  lambda e: False  ")), 2,
        [1, min (1 + 1) (1 * 4)], [true, true]⟩
  ∧ cewWait (⟨0, 20, 1⟩ : WaiterCfg) (fun _ => true) (fun _ => 0) none
        (some 2) none 3 = .ok ⟨.outElems, 1, [], []⟩
  ∧ cewReason (some "  lambda e: False  ") = "  lambda e: False  ".trim
  ∧ cewReason none = "Unknown" :=
  ⟨cew_wait_poll_behaviour.1 ⟨0, 20, 1⟩ (fun _ => 0) (some "  lambda e: False  ")
      (fun _ => false) (fun _ => rfl) (fun _ => le_refl 0),
   cew_wait_poll_behaviour.2.1 ⟨0, 20, 1⟩ (fun _ => 0) none (fun _ => true) 3 rfl
      (by norm_num),
   cew_wait_poll_behaviour.2.2.1 "  lambda e: False  ",
   cew_wait_poll_behaviour.2.2.2⟩

/-- C9: ExceptionRetryElementsWaiter.wait re-raises the last captured failure
when at least one attempt was made and the budget is exhausted; when the loop
body never executed at all it instead raises the "Waiter was never run"
RuntimeError, a distinct terminal condition (a different constructor from the
re-raise, and not the TimeOutError raised by the condition waiter) carrying
the resolved n and ttl values its message formats. -/
theorem erew_wait_terminal_conditions :
    (∀ (cfg : WaiterCfg) (ε α : Type) (recog : ε → Bool) (e : ℕ → ε)
        (clock : ℕ → ℚ) (elemsTruthy : Bool),
        (∀ i, recog (e i) = true) → (∀ k, clock 0 ≤ clock k) →
        erewWait (α := α) cfg recog (fun i => .exc (e i)) clock elemsTruthy
            (some 2) none 3 =
          .ok ⟨.raises (e 1), 2,
            [cfg.pause, min (cfg.pause + cfg.pause) (cfg.pause * 4)],
            if elemsTruthy then [true, true] else []⟩)
  ∧ (∀ (cfg : WaiterCfg) (ε α : Type) (recog : ε → Bool) (f : ℕ → Outcome ε α)
        (clock : ℕ → ℚ) (elemsTruthy : Bool) (t : ℚ) (fuel : ℕ),
        0 < t → 1 ≤ fuel → ¬ (clock 1 < clock 0 + t) →
        erewWait cfg recog f clock elemsTruthy none (some t) fuel =
          .ok ⟨.neverRan 0 t, 0, [], []⟩)
  ∧ (∀ (ε α : Type) (n : Int) (t : ℚ) (x : ε) (a : α),
        (ERes.neverRan (ε := ε) (α := α) n t ≠ .raises x)
      ∧ (ERes.neverRan (ε := ε) (α := α) n t ≠ .returns a)) := by
  have hca2 : ∀ (sN : Int) (sT : ℚ), check_args sN sT (some 2) none = .ok (2, 0) := by
    intro sN sT
    simp [check_args]
  refine ⟨?_, ?_, ?_⟩
  · intro cfg ε α recog e clock elemsTruthy hrec hcl
    unfold erewWait
    rw [hca2]
    cases elemsTruthy <;>
      (simp only [erewLoop, hrec, if_true]
       norm_num
       exact hcl 3)
  · intro cfg ε α recog f clock elemsTruthy t fuel ht hfuel hclk
    obtain ⟨m, rfl⟩ : ∃ m, fuel = m + 1 := ⟨fuel - 1, by omega⟩
    have hca : check_args cfg.n cfg.ttl none (some t) = .ok (0, t) := by
      simp only [check_args, Option.getD_none, Option.getD_some]
      rw [if_neg (lt_irrefl 0), if_neg (not_lt.mpr ht.le), if_neg (by simp),
        if_neg (by simp [ne_of_gt ht])]
    unfold erewWait
    rw [hca]
    simp only [erewLoop]
    rw [if_neg (not_or.mpr ⟨hclk, lt_irrefl 0⟩)]
  · intro ε α n t x a
    exact ⟨fun h => ERes.noConfusion h, fun h => ERes.noConfusion h⟩

theorem erew_wait_terminal_conditions_witness :
    erewWait (⟨0, 20, 1⟩ : WaiterCfg) (fun _ : ℕ => true)
        (fun i => (Outcome.exc i : Outcome ℕ ℕ)) (fun _ => 0) true
        (some 2) none 3 =
      .ok ⟨.raises 1, 2, [1, min (1 + 1) (1 * 4)], [true, true]⟩
  ∧ erewWait (⟨0, 20, 1⟩ : WaiterCfg) (fun _ : ℕ => true)
        (fun i => (Outcome.exc i : Outcome ℕ ℕ)) (fun k => 100 * k) true
        none (some 20) 3 =
      .ok ⟨.neverRan 0 20, 0, [], []⟩
  ∧ (ERes.neverRan (ε := ℕ) (α := ℕ) 0 20 ≠ .raises 5)
  ∧ (ERes.neverRan (ε := ℕ) (α := ℕ) 0 20 ≠ .returns 7) :=
  ⟨erew_wait_terminal_conditions.1 ⟨0, 20, 1⟩ ℕ ℕ (fun _ => true) (fun i => i)
      (fun _ => 0) true (fun _ => rfl) (fun _ => le_refl 0),
   erew_wait_terminal_conditions.2.1 ⟨0, 20, 1⟩ ℕ ℕ (fun _ => true)
      (fun i => .exc i) (fun k => 100 * k) true 20 3 (by norm_num) (by norm_num)
      (by push_cast; norm_num),
   (erew_wait_terminal_conditions.2.2 ℕ ℕ 0 20 5 7).1,
   (erew_wait_terminal_conditions.2.2 ℕ ℕ 0 20 5 7).2⟩

/-- Embeds Elements.update (elements.py lines 570-580) acting on the cached
items: self.items = self.fn(self.context) is a single wholesale assignment of
the freshly resolved snapshot, and a resolver that raises propagates before
the assignment, leaving items at the last successful snapshot. The result is
the raised message, if any, together with the items after the call. The
propagate branch only recurses into the context and does not touch this
collection's items before the assignment. -/
def elementsUpdate {V : Type} (resolve : Except String (List V)) (items : List V) :
    Option String × List V :=
  match resolve with
  | .error e => (some e, items)
  | .ok xs => (none, xs)

/-- Embeds Elements.__len__ (elements.py line 253): len(self.items), leaving
items untouched. -/
def elementsLen {V : Type} (items : List V) : ℕ × List V :=
  (items.length, items)

/-- Embeds the Elements.item property (elements.py lines 258-261): items[0]
if items else None, leaving items untouched. -/
def elementsItem {V : Type} (items : List V) : Option V × List V :=
  (items.head?, items)

/-- Embeds Elements.__setitem__ (elements.py line 250): self.items[i] = value,
for in-range nonnegative indices (out of range Python raises IndexError; the
claims only exercise in-range indices). -/
def elementsSetitem {V : Type} (items : List V) (i : ℕ) (v : V) : List V :=
  items.set i v

/-- Embeds Elements.__delitem__ (elements.py line 251): del self.items[i],
for in-range nonnegative indices. -/
def elementsDelitem {V : Type} (items : List V) (i : ℕ) : List V :=
  items.eraseIdx i

/-- Embeds Elements.insert (elements.py line 256):
self.items.insert(index, value). -/
def elementsInsert {V : Type} (items : List V) (i : ℕ) (v : V) : List V :=
  items.insertIdx i v

/-- C2 counterexample: the claim that update is the single mutation point of
items — that no other operation of the public interface mutates items — is
false at the concrete collection with items [1, 2]: the MutableSequence
operations __setitem__, __delitem__ and insert (elements.py lines 250-256)
each change items in place without going through update. -/
theorem update_not_single_mutation_point :
    elementsSetitem [1, 2] 0 5 = [5, 2]
  ∧ elementsSetitem [1, 2] 0 5 ≠ [1, 2]
  ∧ elementsDelitem [(1 : ℕ), 2] 0 ≠ [1, 2]
  ∧ elementsInsert [(1 : ℕ), 2] 0 9 ≠ [1, 2] := by
  refine ⟨rfl, ?_, ?_, ?_⟩ <;> decide

/-- C2 (amended): update is atomic in the claimed sense — it replaces items
wholesale with the freshly resolved snapshot, a failing resolver leaves items
at the last successful snapshot, and the read accessors leave items untouched
— but it is not the single mutation point of the public interface: the
MutableSequence operations __setitem__, __delitem__ and insert also mutate
items. -/
theorem update_replaces_items_atomically :
    (∀ (V : Type) (xs newItems : List V),
        elementsUpdate (.ok newItems) xs = (none, newItems))
  ∧ (∀ (V : Type) (xs : List V) (msg : String),
        elementsUpdate (.error msg) xs = (some msg, xs))
  ∧ (∀ (V : Type) (xs : List V),
        (elementsLen xs).2 = xs ∧ (elementsItem xs).2 = xs)
  ∧ (∃ xs : List ℕ, ∃ i : ℕ, ∃ v : ℕ, elementsSetitem xs i v ≠ xs)
  ∧ (∃ xs : List ℕ, ∃ i : ℕ, elementsDelitem xs i ≠ xs)
  ∧ (∃ xs : List ℕ, ∃ i : ℕ, ∃ v : ℕ, elementsInsert xs i v ≠ xs) :=
  ⟨fun _ _ _ => rfl, fun _ _ _ => rfl, fun _ _ => ⟨rfl, rfl⟩,
   ⟨[1, 2], 0, 5, by decide⟩, ⟨[1, 2], 0, by decide⟩, ⟨[1, 2], 0, 9, by decide⟩⟩

/-- Construction-time state produced by a successful Elements.__init__: the
populated items, the stored config ttl, and the number of resolver
evaluations performed during construction. -/
structure InitState (V : Type) where
  items : List V
  ttlCfg : ℚ
  fnEvals : ℕ
deriving DecidableEq, Repr

/-- Embeds Elements.__init__ (elements.py lines 226-246). The Python signature
is (self, browser, context, fn, config=None): it accepts no lazy keyword, so
a call passing one — as SeElements.__init__ (drivers/se.py lines 83-84)
always does, and as the repository's own tests do — raises TypeError before
any field is set. Otherwise it stores config (config ttl defaulted to
DEFAULT_TTL when falsy) and immediately runs update(propagate=False),
evaluating the resolver exactly once; a resolver exception propagates out of
the constructor. -/
def elementsInit {V : Type} (resolve : Except String (List V)) (cfgTtl : Option ℚ)
    (lazyKw : Option Bool) : Except String (InitState V) :=
  match lazyKw with
  | some _ => .error "TypeError: unexpected keyword argument lazy"
  | none =>
    match resolve with
    | .error e => .error e
    | .ok xs =>
      .ok ⟨xs, if qTruthy cfgTtl then cfgTtl.getD 0 else DEFAULT_TTL, 1⟩

/-- C3 (code evaluation): Elements.__init__ has no lazy parameter, so
constructing with lazy=true raises TypeError rather than deferring the
resolver, and any construction that does succeed evaluates the resolver
exactly once, at construction time. -/
theorem init_lazy_keyword_rejected :
    (∀ (V : Type) (resolve : Except String (List V)) (cfgTtl : Option ℚ) (b : Bool),
        elementsInit resolve cfgTtl (some b) =
          .error "TypeError: unexpected keyword argument lazy")
  ∧ (∀ (V : Type) (xs : List V) (cfgTtl : Option ℚ) (st : InitState V),
        elementsInit (.ok xs) cfgTtl none = .ok st →
        st.fnEvals = 1 ∧ st.items = xs)
  ∧ elementsInit (V := ℕ) (.ok [7]) none (some true) =
      .error "TypeError: unexpected keyword argument lazy" := by
  refine ⟨fun V r c b => rfl, ?_, rfl⟩
  intro V xs c st h
  have hst : st = ⟨xs, if qTruthy c then c.getD 0 else DEFAULT_TTL, 1⟩ :=
    (Except.ok.inj h).symm
  constructor <;> rw [hst]

theorem init_lazy_keyword_rejected_witness :
    (⟨[7], 20, 1⟩ : InitState ℕ).fnEvals = 1
  ∧ (⟨[7], 20, 1⟩ : InitState ℕ).items = [7] :=
  init_lazy_keyword_rejected.2.1 ℕ [7] none ⟨[7], 20, 1⟩ rfl

/-- Result of the internal ConditionWaiter.until of elements.py (lines
97-125): outElems models returning self.elements, timeout models the raised
TimeOutError() (the internal class raises it without a message). -/
inductive UntilRes where
  | outElems
  | timeout
  | fuelOut
deriving DecidableEq, Repr

/-- Embeds the loop of ConditionWaiter.until (elements.py lines 112-125):
start_time = time.time() (clock reading 0); while time.time() - start_time <
ttl (readings 1, 2, ...): if the predicate on the elements is false, sleep
DEFAULT_SLEEP_TIME and update the elements, else break with ok; after the
loop, TimeOutError() is raised when ok was never set, else the elements are
returned. The second component counts predicate calls. -/
def cwUntilLoop (f : ℕ → Bool) (clock : ℕ → ℚ) (ttl : ℚ) :
    ℕ → ℕ → ℕ → UntilRes × ℕ
  | 0, calls, _ => (.fuelOut, calls)
  | fuel + 1, calls, clockIdx =>
    if clock clockIdx - clock 0 < ttl then
      if f calls then (.outElems, calls + 1)
      else cwUntilLoop f clock ttl fuel (calls + 1) (clockIdx + 1)
    else (.timeout, calls)

/-- Embeds ConditionWaiter.until (elements.py lines 100-125), starting the
loop at clock reading 1 with zero predicate calls made. -/
def cwUntil (f : ℕ → Bool) (clock : ℕ → ℚ) (ttl : ℚ) (fuel : ℕ) : UntilRes × ℕ :=
  cwUntilLoop f clock ttl fuel 0 1

/-- Result of Elements.insist: returned models a normal return of self,
assertionError models a failed assert fn(retval). -/
inductive InsistRes where
  | returned
  | assertionError
  | fuelOut
deriving DecidableEq, Repr

/-- Observable outcome of an Elements.insist run: the result, whether the
final assert applied the predicate to None (true after a swallowed timeout)
or to the elements returned by the wait, and the total number of predicate
calls, the final assert's call included. -/
structure InsistTrace where
  res : InsistRes
  finalArgIsNone : Bool
  predCalls : ℕ
deriving DecidableEq, Repr

/-- Embeds Elements.insist (elements.py lines 536-568): retval = None; try
retval = ConditionWaiter(self).until(fn, ttl) swallowing TimeOutError; then
assert fn(retval); return self. After a timeout retval is still None, so the
final hard assertion evaluates the predicate on None, not on self; after a
successful wait it evaluates the predicate once more on the elements. The
predicate is modelled in two parts: fElems i is its value on the elements at
its i-th call, fNone its value on None. -/
def insist (fElems : ℕ → Bool) (fNone : Bool) (clock : ℕ → ℚ) (ttl : ℚ)
    (fuel : ℕ) : InsistTrace :=
  match cwUntil fElems clock ttl fuel with
  | (.outElems, calls) =>
    if fElems calls then ⟨.returned, false, calls + 1⟩
    else ⟨.assertionError, false, calls + 1⟩
  | (.timeout, calls) =>
    if fNone then ⟨.returned, true, calls + 1⟩
    else ⟨.assertionError, true, calls + 1⟩
  | (.fuelOut, calls) => ⟨.fuelOut, false, calls⟩

/-- C4 counterexample: the claim that insist evaluates predicate(self) after
swallowing the timeout — and hence raises an assertion failure for every
predicate that never becomes true within the wait budget — is false. With a
predicate that is false on the collection at every call but true on None
(modelling e.g. lambda e: e is None), the wait times out after one false
call, yet insist succeeds and returns self, because the code asserts
fn(retval) with retval = None, not fn(self). -/
theorem insist_counterexample :
    insist (fun _ => false) true (fun k => if k ≤ 1 then (k : ℚ) else 5) 2 3 =
      ⟨.returned, true, 2⟩
  ∧ InsistRes.returned ≠ InsistRes.assertionError := by
  constructor
  · unfold insist cwUntil
    simp only [cwUntilLoop]
    norm_num
  · exact fun h => InsistRes.noConfusion h

/-- C4 (amended): insist swallows the TimeOutError of the condition wait and
then evaluates the predicate on the wait's result variable, which is None
after a timeout (not self): the hard assertion — an assertion failure
distinct from TimeOutError, which never escapes insist — fails exactly when
the predicate applied to None is falsy; when the predicate becomes true
within the budget, insist evaluates it once more on the collection and
returns self. -/
theorem insist_asserts_predicate_on_none :
    (∀ (fElems : ℕ → Bool) (fNone : Bool) (clock : ℕ → ℚ) (ttl : ℚ) (fuel : ℕ),
        1 ≤ fuel → ¬ (clock 1 - clock 0 < ttl) →
        insist fElems fNone clock ttl fuel =
          if fNone then ⟨.returned, true, 1⟩ else ⟨.assertionError, true, 1⟩)
  ∧ (∀ (fElems : ℕ → Bool) (fNone : Bool) (clock : ℕ → ℚ) (ttl : ℚ) (fuel : ℕ),
        1 ≤ fuel → clock 1 - clock 0 < ttl → (∀ i, fElems i = true) →
        insist fElems fNone clock ttl fuel = ⟨.returned, false, 2⟩) := by
  constructor
  · intro fElems fNone clock ttl fuel hfuel hclk
    obtain ⟨m, rfl⟩ : ∃ m, fuel = m + 1 := ⟨fuel - 1, by omega⟩
    unfold insist cwUntil
    simp only [cwUntilLoop]
    rw [if_neg hclk]
  · intro fElems fNone clock ttl fuel hfuel hclk htrue
    obtain ⟨m, rfl⟩ : ∃ m, fuel = m + 1 := ⟨fuel - 1, by omega⟩
    unfold insist cwUntil
    simp only [cwUntilLoop, htrue]
    rw [if_pos hclk]
    simp

theorem insist_asserts_predicate_on_none_witness :
    insist (fun _ => false) false (fun k => if k = 0 then 0 else 5) 2 3 =
      (if false then (⟨.returned, true, 1⟩ : InsistTrace)
       else ⟨.assertionError, true, 1⟩)
  ∧ insist (fun _ => true) false (fun _ => 0) 2 3 = ⟨.returned, false, 2⟩ :=
  ⟨insist_asserts_predicate_on_none.1 (fun _ => false) false
      (fun k => if k = 0 then 0 else 5) 2 3 (by norm_num) (by norm_num),
   insist_asserts_predicate_on_none.2 (fun _ => true) false (fun _ => 0) 2 3
      (by norm_num) (by norm_num) (fun _ => rfl)⟩

/-- An Elements object for the foreach embedding, reduced to what foreach
touches: the cached items and what the resolver resolves to on update (a
stable document: update sets items to resolveTo and leaves resolveTo
unchanged). -/
structure SimpleElems (V : Type) where
  items : List V
  resolveTo : List V
deriving DecidableEq, Repr

/-- Embeds the module-level with_update of elements.py (lines 39-62), the
update-retry policy that self.with_update routes through. Modelled from the
spec for the method binding: the concrete implementation of
Elements.with_update is not in src — elements.py lines 296-306 only declare
it abstractly (and with an elements parameter foreach never passes) — and per
spec 4.5 the retried-with-update policy applies the operation to the receiver
collection; the module function's loop is embedded verbatim: while ttl > 0
invoke fn(elements); on a recognized failure elements.update(), sleep,
ttl -= sleep_time, sleep_time += min(sleep_time + sleep_time, 1); an
unrecognized failure raises; an exhausted budget falls through to one final
fn(elements) call. The operation receives the current items and the attempt
index within this run. Returns the result, the elements after the run, and
the number of calls made. -/
def withUpdateLoop {V ε R : Type} (recog : ε → Bool) (op : List V → ℕ → Outcome ε R) :
    ℕ → SimpleElems V → ℚ → ℚ → ℕ → RRes ε R × SimpleElems V × ℕ
  | 0, e, _, _, attempt => (.fuelOut, e, attempt)
  | fuel + 1, e, ttl, sleepTime, attempt =>
    if ttl > 0 then
      match op e.items attempt with
      | .ok r => (.returns r, e, attempt + 1)
      | .exc ex =>
        if recog ex then
          withUpdateLoop recog op fuel ⟨e.resolveTo, e.resolveTo⟩ (ttl - sleepTime)
            (sleepTime + min (sleepTime + sleepTime) 1) (attempt + 1)
        else (.raises ex, e, attempt + 1)
    else
      match op e.items attempt with
      | .ok r => (.returns r, e, attempt + 1)
      | .exc ex => (.raises ex, e, attempt + 1)

/-- Entry point of the with_update policy: sleep_time starts at
DEFAULT_SLEEP_TIME and the attempt counter at zero. -/
def with_update {V ε R : Type} (recog : ε → Bool) (op : List V → ℕ → Outcome ε R)
    (e : SimpleElems V) (ttl : ℚ) (fuel : ℕ) : RRes ε R × SimpleElems V × ℕ :=
  withUpdateLoop recog op fuel e ttl DEFAULT_SLEEP_TIME 0

/-- Embeds Elements.foreach (elements.py lines 473-511) with
return_results=True and pause=0. The for loop iterates the ElementsIterator
(elements.py lines 203-218): the index i runs while i < len(items), re-read
each step; each step recomputes the remaining ttl from the clock when ttl is
truthy (readings indexed by iteration, start_time being reading 0) and
appends self.with_update(fn, ttl=ttl) — the loop variable element is never
passed on, so every call applies the operation to the whole receiver
collection. -/
def foreachLoop {V ε R : Type} (recog : ε → Bool) (op : List V → ℕ → Outcome ε R)
    (clock : ℕ → ℚ) (wuFuel : ℕ) :
    ℕ → SimpleElems V → ℚ → ℕ → ℕ → List R → RRes ε (List R) × SimpleElems V
  | 0, e, _, _, _, _ => (.fuelOut, e)
  | fuel + 1, e, ttl, i, clockIdx, acc =>
    if i < e.items.length then
      let ttl2 := if ttl ≠ 0 then ttl - (clock clockIdx - clock 0) else ttl
      match with_update recog op e ttl2 wuFuel with
      | (.returns r, e2, _) =>
        foreachLoop recog op clock wuFuel fuel e2 ttl2 (i + 1) (clockIdx + 1)
          (acc ++ [r])
      | (.raises ex, e2, _) => (.raises ex, e2)
      | (.fuelOut, e2, _) => (.fuelOut, e2)
    else (.returns acc, e)

/-- Entry point of foreach: index 0, clock reading 1 next, empty result
accumulator. -/
def foreach {V ε R : Type} (recog : ε → Bool) (op : List V → ℕ → Outcome ε R)
    (clock : ℕ → ℚ) (wuFuel fuel : ℕ) (e : SimpleElems V) (ttl : ℚ) :
    RRes ε (List R) × SimpleElems V :=
  foreachLoop recog op clock wuFuel fuel e ttl 0 1 []

/-- The behaviour foreach's own docstring (elements.py lines 479-497) and the
spec describe: the i-th entry of the returned list is the result of applying
the operation, under the update-retry policy, to the i-th item presented as a
single-element child collection obtained via get (whose resolver re-indexes
the parent, here a stable singleton). -/
def foreachClaimed {V ε R : Type} (recog : ε → Bool) (op : List V → ℕ → Outcome ε R)
    (e : SimpleElems V) (ttl : ℚ) (wuFuel : ℕ) : List (RRes ε R) :=
  e.items.map (fun v => (with_update recog op ⟨[v], [v]⟩ ttl wuFuel).1)

/-- C1 (code evaluation): foreach applies the operation to the whole receiver
collection on every iteration instead of to the i-th single-element child:
the loop variable element is unused and each call goes through
self.with_update(fn, ttl=ttl). On a 2-item collection [10, 20] with a
recognized-failing-then-succeeding operation that returns its argument's item
list and ample ttl, foreach does return a result list of length 2, but both
entries are the whole collection's items [10, 20], while the docstring and
the claim promise the per-child results [10] and [20]. -/
theorem foreach_ignores_loop_element :
    foreach (V := ℕ) (fun _ : ℕ => true)
        (fun items attempt => if attempt = 0 then .exc 0 else .ok items)
        (fun _ => 0) 5 3 ⟨[10, 20], [10, 20]⟩ 20 =
      (.returns [[10, 20], [10, 20]], ⟨[10, 20], [10, 20]⟩)
  ∧ foreachClaimed (V := ℕ) (fun _ : ℕ => true)
        (fun items attempt => if attempt = 0 then .exc 0 else .ok items)
        ⟨[10, 20], [10, 20]⟩ 20 5 =
      [.returns [10], .returns [20]]
  ∧ ([[10, 20], [10, 20]] : List (List ℕ)) ≠ [[10], [20]] := by
  refine ⟨?_, ?_, by decide⟩
  · unfold foreach
    simp only [foreachLoop, with_update, withUpdateLoop, DEFAULT_SLEEP_TIME]
    norm_num
  · unfold foreachClaimed
    simp only [List.map, with_update, withUpdateLoop, DEFAULT_SLEEP_TIME]
    norm_num

end Elementium
